import Mathlib

/-!
Verification of the contest lifecycle and fair-draw engine of the Ro
Telegram-bot repository, as a shallow embedding in Lean.

The embedding follows the Python source:
* `app/services/security.py`   - `draw_unique` (partial Fisher-Yates selection)
* `app/db/repositories.py`     - `FeatureAccessRepository.has_access`,
                                 `grant_monthly`, `VoteRepository.has_voted`
* `app/services/payments.py`   - `_grant_one_time`
* `app/services/voting.py`     - `VotingService.add_vote`, `get_top_entries`
* `app/routers/roulette.py`    - `draw` (lock protocol), `pause`/`resume`,
                                 `join`, `gate_add`, `collect_winners`,
                                 `_parse_int_strict`
Database rows become Lean structures, sessions become explicit state
passing, platform calls (membership checks and message sends) become
boolean parameters or are dropped when they do not affect the verified
state.
-/

namespace Ro

/-! ## Fair-draw selector (`app/services/security.py`, `draw_unique`)

The Python list `indices` (initially `list(range(len(sample)))`, mutated
only by position swaps) is embedded as a total map `Nat → Nat`; one swap
`indices[i], indices[j] = indices[j], indices[i]` updates the map at the
two positions.  The random source `_secure_rand.randrange(i, len(indices))`
becomes a parameter `rand : Nat → Nat`, constrained in the theorems to the
range the call guarantees. -/

/-- One in-place swap of the values stored at positions `i` and `j`. -/
def swapVals (f : Nat → Nat) (i j : Nat) : Nat → Nat :=
  fun x => if x = i then f j else if x = j then f i else f x

/-- The `indices` array after the first `n` iterations of the loop
`for i in range(k): j = randrange(i, len(indices)); swap`. -/
def fyIndices (rand : Nat → Nat) : Nat → Nat → Nat
  | 0 => fun x => x
  | n + 1 => swapVals (fyIndices rand n) n (rand n)

/-- `k = max(0, min(k, len(sample)))` : the clamping done by `draw_unique`. -/
def clampK (k : Int) (n : Nat) : Nat := (max 0 (min k (n : Int))).toNat

/-- `draw_unique(sample, k)`: partial Fisher-Yates selection without
replacement, returning `[sample[indices[i]] for i in range(k)]`. -/
def draw_unique (rand : Nat → Nat) (sample : List Nat) (k : Int) : List Nat :=
  (List.range (clampK k sample.length)).map
    (fun i => sample.getD (fyIndices rand (clampK k sample.length) i) 0)

lemma swapVals_eq_comp (f : Nat → Nat) (i j : Nat) :
    swapVals f i j = f ∘ (Equiv.swap i j) := by
  funext x
  simp only [swapVals, Function.comp_apply, Equiv.swap_apply_def]
  by_cases h1 : x = i <;> by_cases h2 : x = j <;> by_cases h3 : j = i <;>
    simp_all

lemma fyIndices_injective (rand : Nat → Nat) (n : Nat) :
    Function.Injective (fyIndices rand n) := by
  induction n with
  | zero => exact fun a b h => h
  | succ m ih =>
    show Function.Injective (swapVals (fyIndices rand m) m (rand m))
    rw [swapVals_eq_comp]
    exact ih.comp (Equiv.swap m (rand m)).injective

lemma fyIndices_lt (rand : Nat → Nat) (N : Nat) (n : Nat) (hn : n ≤ N)
    (hrand : ∀ i, i < n → rand i < N) :
    ∀ x, x < N → fyIndices rand n x < N := by
  induction n with
  | zero => exact fun x hx => hx
  | succ m ih =>
    intro x hx
    show swapVals (fyIndices rand m) m (rand m) x < N
    rw [swapVals_eq_comp]
    have hm : m < N := Nat.lt_of_lt_of_le (Nat.lt_succ_self m) hn
    have hr : rand m < N := hrand m (Nat.lt_succ_self m)
    have hsw : Equiv.swap m (rand m) x < N := by
      by_cases h1 : x = m
      · simpa [Equiv.swap_apply_def, h1] using hr
      · by_cases h2 : x = rand m
        · simpa [Equiv.swap_apply_def, h1, h2] using hm
        · simpa [Equiv.swap_apply_def, h1, h2] using hx
    exact ih (Nat.le_of_succ_le hn) (fun i hi => hrand i (Nat.lt_succ_of_lt hi)) _ hsw

lemma clampK_le (k : Int) (n : Nat) : clampK k n ≤ n := by
  unfold clampK
  omega

lemma draw_unique_length (rand : Nat → Nat) (sample : List Nat) (k : Int) :
    (draw_unique rand sample k).length = clampK k sample.length := by
  simp [draw_unique]

/-- Claim C3: `draw_unique` returns exactly `max(0, min(k, len(pool)))` ids,
all drawn from the pool and pairwise distinct (no replacement); for `k = 0`
it returns the empty sequence, and for `k > len(pool)` the count is clamped
to `len(pool)`.  The random source is any function satisfying the range
contract of `randrange(i, len(indices))`. -/
theorem draw_unique_spec (rand : Nat → Nat) (sample : List Nat) (k : Int)
    (hrand : ∀ i, i < clampK k sample.length → i ≤ rand i ∧ rand i < sample.length)
    (hnd : sample.Nodup) :
    ((draw_unique rand sample k).length : Int) = max 0 (min k (sample.length : Int)) ∧
    (∀ x ∈ draw_unique rand sample k, x ∈ sample) ∧
    (draw_unique rand sample k).Nodup ∧
    (k = 0 → draw_unique rand sample k = []) ∧
    ((sample.length : Int) < k → (draw_unique rand sample k).length = sample.length) := by
  have hlen := draw_unique_length rand sample k
  have hidx : ∀ i, i < clampK k sample.length →
      fyIndices rand (clampK k sample.length) i < sample.length := by
    intro i hi
    exact fyIndices_lt rand sample.length (clampK k sample.length)
      (clampK_le k sample.length) (fun j hj => (hrand j hj).2) i
      (Nat.lt_of_lt_of_le hi (clampK_le k sample.length))
  refine ⟨?_, ?_, ?_, ?_, ?_⟩
  · rw [hlen]
    unfold clampK
    omega
  · intro x hx
    rw [draw_unique, List.mem_map] at hx
    obtain ⟨i, hi, hxi⟩ := hx
    rw [List.mem_range] at hi
    have hb := hidx i hi
    rw [List.getD_eq_getElem _ _ hb] at hxi
    exact hxi ▸ List.getElem_mem hb
  · rw [draw_unique]
    refine List.Nodup.map_on ?_ (List.nodup_range _)
    intro a ha b hb hab
    rw [List.mem_range] at ha hb
    have hba := hidx a ha
    have hbb := hidx b hb
    rw [List.getD_eq_getElem _ _ hba, List.getD_eq_getElem _ _ hbb] at hab
    have hg : sample.get ⟨_, hba⟩ = sample.get ⟨_, hbb⟩ := by
      simpa [List.get_eq_getElem] using hab
    have hfin := List.nodup_iff_injective_get.mp hnd hg
    exact fyIndices_injective rand _ (congrArg Fin.val hfin)
  · intro hk
    subst hk
    have : clampK 0 sample.length = 0 := by unfold clampK; omega
    rw [draw_unique, this]
    rfl
  · intro hk
    rw [hlen]
    unfold clampK
    omega

/-- Witness for C3 at a concrete input: pool `[10, 20, 30]`, `k = 2`,
random source the identity (a valid draw of `randrange(i, 3)`). -/
theorem draw_unique_spec_witness :
    (∀ x ∈ draw_unique (fun i => i) [10, 20, 30] 2, x ∈ [10, 20, 30]) ∧
    (draw_unique (fun i => i) [10, 20, 30] 2).Nodup ∧
    ((draw_unique (fun i => i) [10, 20, 30] 2).length : Int) = 2 := by
  have h := draw_unique_spec (fun i => i) [10, 20, 30] 2
    (by
      intro i hi
      have hc : clampK 2 [10, 20, 30].length = 2 := by decide
      rw [hc] at hi
      exact ⟨Nat.le_refl i, lt_of_lt_of_le hi (by decide)⟩)
    (by decide)
  exact ⟨h.2.1, h.2.2.1, by rw [h.1]; decide⟩

/-! ## Entitlement ledger (`app/db/repositories.py`, `FeatureAccessRepository`;
`app/services/payments.py`, `_grant_one_time`)

A `feature_access` row for one `(user, feature)` pair.  Timestamps are
integers (`datetime` comparison and `timedelta` addition become integer
comparison and addition; the timezone normalisation in the source does not
change the comparison).  `Option FeatureAccess` is the result of
`get_user_access`: `none` when no row exists. -/

structure FeatureAccess where
  expires_at : Option Int
  one_time_credits : Int
deriving DecidableEq

/-- The `if expires_at: ... if expires_at > now` test of `has_access`. -/
def expiryActive (fa : FeatureAccess) (now : Int) : Bool :=
  match fa.expires_at with
  | some e => decide (now < e)
  | none => false

/-- `FeatureAccessRepository.has_access(user, feature, consume_one_time)`:
returns the boolean result together with the row as left in the store. -/
def has_access (fa0 : Option FeatureAccess) (now : Int) (consume_one_time : Bool) :
    Bool × Option FeatureAccess :=
  match fa0 with
  | none => (false, none)
  | some fa =>
    if expiryActive fa now then (true, some fa)
    else if 0 < fa.one_time_credits then
      if consume_one_time then
        (true, some { fa with one_time_credits := fa.one_time_credits - 1 })
      else (true, some fa)
    else (false, some fa)

/-- `FeatureAccessRepository.grant_monthly(user, feature, days)`: create the
row with `expires_at = now + days`, or extend from `max(existing, now)`. -/
def grant_monthly (fa0 : Option FeatureAccess) (now days : Int) : FeatureAccess :=
  match fa0 with
  | none => { expires_at := some (now + days), one_time_credits := 0 }
  | some fa =>
    let base : Int :=
      match fa.expires_at with
      | some e => max e now
      | none => now
    { fa with expires_at := some (base + days) }

/-- `payments._grant_one_time(user, credits)`: create the row with the given
credit balance, or increment the existing balance. -/
def grant_one_time (fa0 : Option FeatureAccess) (credits : Int) : FeatureAccess :=
  match fa0 with
  | none => { expires_at := none, one_time_credits := credits }
  | some fa => { fa with one_time_credits := fa.one_time_credits + credits }

/-- Claim C5: `has_access` returns true without mutation while the stored
expiry is in the future; otherwise, with a positive credit balance it
returns true and decrements by exactly one iff consumption was requested;
otherwise false without mutation (also when no row exists).  In particular a
credit is never consumed while an unexpired time-boxed grant covers the
action. -/
theorem has_access_cases (fa : FeatureAccess) (now : Int) (consume : Bool) :
    (expiryActive fa now = true →
      has_access (some fa) now consume = (true, some fa)) ∧
    (expiryActive fa now = false → 0 < fa.one_time_credits → consume = true →
      has_access (some fa) now consume =
        (true, some { fa with one_time_credits := fa.one_time_credits - 1 })) ∧
    (expiryActive fa now = false → 0 < fa.one_time_credits → consume = false →
      has_access (some fa) now consume = (true, some fa)) ∧
    (expiryActive fa now = false → fa.one_time_credits ≤ 0 →
      has_access (some fa) now consume = (false, some fa)) ∧
    has_access none now consume = (false, none) := by
  refine ⟨?_, ?_, ?_, ?_, rfl⟩ <;> intros <;>
    simp_all [has_access]

/-- Witness for C5: an unexpired grant (`expires_at = 10 > now = 5`) with a
positive credit balance answers true and leaves the balance untouched even
when consumption is requested. -/
theorem has_access_cases_witness :
    has_access (some ⟨some 10, 3⟩) 5 true = (true, some ⟨some 10, 3⟩) :=
  (has_access_cases ⟨some 10, 3⟩ 5 true).1 (by decide)

/-- Claim C6: `grant_monthly` stacks forward without losing remaining time:
with no row, a row without an expiry, or an expiry already passed, the new
expiry is `now + days`; with an unexpired expiry `e` it is `e + days`; hence
granting twice before expiry yields `old_expiry + days + days`, not
`now + days`. -/
theorem grant_monthly_stacks (fa : FeatureAccess) (now days e : Int) :
    (grant_monthly none now days).expires_at = some (now + days) ∧
    (fa.expires_at = none →
      (grant_monthly (some fa) now days).expires_at = some (now + days)) ∧
    (fa.expires_at = some e → e ≤ now →
      (grant_monthly (some fa) now days).expires_at = some (now + days)) ∧
    (fa.expires_at = some e → now ≤ e →
      (grant_monthly (some fa) now days).expires_at = some (e + days)) ∧
    (fa.expires_at = some e → now ≤ e → ∀ now2, now2 ≤ e + days →
      (grant_monthly (some (grant_monthly (some fa) now days)) now2 days).expires_at =
        some (e + days + days)) := by
  refine ⟨rfl, ?_, ?_, ?_, ?_⟩
  · intro h
    simp [grant_monthly, h]
  · intro h hle
    simp [grant_monthly, h, max_eq_right hle]
  · intro h hge
    simp [grant_monthly, h, max_eq_left hge]
  · intro h hge now2 h2
    simp [grant_monthly, h, max_eq_left hge, max_eq_left h2]

/-- Witness for C6: an unexpired grant until day 40 extended at day 20 by 30
days runs until day 70 (= 40 + 30), and a second grant at day 25 extends to
day 100 (= 40 + 30 + 30), not 25 + 30. -/
theorem grant_monthly_stacks_witness :
    (grant_monthly (some ⟨some 40, 0⟩) 20 30).expires_at = some 70 ∧
    (grant_monthly (some (grant_monthly (some ⟨some 40, 0⟩) 20 30)) 25 30).expires_at =
      some 100 :=
  ⟨(grant_monthly_stacks ⟨some 40, 0⟩ 20 30 40).2.2.2.1 rfl (by decide),
   (grant_monthly_stacks ⟨some 40, 0⟩ 20 30 40).2.2.2.2 rfl (by decide) 25 (by decide)⟩

/-! ## Zero-price gate feature (`app/routers/roulette.py`, `gate_add`)

`gate_add` first asks `has_gate_access(user)` (a `has_access` call with
`consume_one_time=False`); without access it reads the two configured
prices; a zero price short-circuits into a free grant and the gate-add menu
instead of the payment prompt. -/

inductive GrantKind
  | monthly
  | oneTime
deriving DecidableEq

/-- Outcome of the `gate_add` callback: either the gate-add menu is shown
(possibly after a free grant) or the user is asked to pay. -/
inductive GateAddResult
  | menuShown (granted : Option GrantKind)
  | paymentPrompt
deriving DecidableEq

/-- The entitlement-relevant behaviour of `gate_add`: result of the callback
plus the `feature_access` row as left in the store. -/
def gate_add (fa0 : Option FeatureAccess) (now : Int) (m_price o_price : Int) :
    GateAddResult × Option FeatureAccess :=
  if (has_access fa0 now false).1 then (.menuShown none, fa0)
  else if m_price = 0 ∨ o_price = 0 then
    if m_price = 0 then (.menuShown (some .monthly), some (grant_monthly fa0 now 30))
    else (.menuShown (some .oneTime), some (grant_one_time fa0 1))
  else (.paymentPrompt, fa0)

/-- Claim C7: with a zero configured price, a user without access requesting
the gate feature is auto-granted the corresponding access (a monthly grant
when the monthly price is 0, else one one-time credit when the one-time
price is 0), no payment prompt is shown, and the user proceeds entitled
(`has_access` is true afterwards). -/
theorem gate_add_zero_price (fa0 : Option FeatureAccess) (now : Int) (m_price o_price : Int)
    (hno : (has_access fa0 now false).1 = false) :
    (m_price = 0 →
      gate_add fa0 now m_price o_price =
        (.menuShown (some .monthly), some (grant_monthly fa0 now 30)) ∧
      (has_access (some (grant_monthly fa0 now 30)) now false).1 = true) ∧
    (m_price ≠ 0 → o_price = 0 →
      gate_add fa0 now m_price o_price =
        (.menuShown (some .oneTime), some (grant_one_time fa0 1)) ∧
      (grant_one_time fa0 1).one_time_credits =
        (match fa0 with | none => 0 | some fa => fa.one_time_credits) + 1 ∧
      ((has_access fa0 now false).2 = fa0 → (has_access (some (grant_one_time fa0 1)) now false).1 =
        true ∨ (grant_one_time fa0 1).one_time_credits ≤ 0)) := by
  constructor
  · intro hm
    constructor
    · simp [gate_add, hno, hm]
    · have hact : expiryActive (grant_monthly fa0 now 30) now = true := by
        cases fa0 with
        | none => simp [grant_monthly, expiryActive]
        | some fa =>
          cases hfe : fa.expires_at with
          | none => simp [grant_monthly, hfe, expiryActive]
          | some e =>
            simp only [grant_monthly, hfe, expiryActive, decide_eq_true_eq]
            have : now ≤ max e now := le_max_right e now
            omega
      simp [has_access, hact]
  · intro hm ho
    refine ⟨by simp [gate_add, hno, hm, ho], ?_, ?_⟩
    · cases fa0 with
      | none => rfl
      | some fa => rfl
    · intro _
      cases fa0 with
      | none =>
        left
        simp [has_access, grant_one_time, expiryActive]
      | some fa =>
        by_cases hc : 0 < fa.one_time_credits + 1
        · left
          simp only [has_access, grant_one_time]
          split
          · rfl
          · simp [hc]
        · right
          simp [grant_one_time]
          omega

/-- Witness for C7: a user with no entitlement row, monthly price 0 — the
menu is shown with a free monthly grant and no payment prompt. -/
theorem gate_add_zero_price_witness :
    gate_add none 0 0 10 = (.menuShown (some .monthly), some (grant_monthly none 0 30)) :=
  ((gate_add_zero_price none 0 0 10 (by decide)).1 rfl).1

/-! ## Voting tally (`app/services/voting.py`, `VotingService.add_vote`;
`app/db/repositories.py`, `VoteRepository.has_voted`)

Rows of `contests`, `contest_entries` and `votes` become structures; the
session becomes a `VoteState` record threaded through `add_vote`.
`star_to_vote_rate` embeds the source's `star_to_vote_ratio` column (the
star-to-vote exchange factor); `contest.star_to_vote_ratio or 2` in the
source maps a zero value to the default 2. -/

structure VContest where
  id : Nat
  is_open : Bool
  prevent_multiple_votes : Bool
  star_to_vote_rate : Int
deriving DecidableEq

structure VEntry where
  id : Nat
  contest_id : Nat
  user_id : Nat
  votes_count : Int
  stars_received : Int
deriving DecidableEq

structure VoteRec where
  contest_id : Nat
  entry_id : Nat
  voter_id : Nat
  is_stars : Bool
  stars_amount : Int
deriving DecidableEq

structure VoteState where
  contests : List VContest
  entries : List VEntry
  votes : List VoteRec
deriving DecidableEq

/-- `VoteRepository.has_voted(contest_id, voter_id)`: any vote row (normal or
stars) by this voter in this contest. -/
def has_voted (votes : List VoteRec) (contest_id voter_id : Nat) : Bool :=
  votes.any (fun v => v.contest_id == contest_id && v.voter_id == voter_id)

/-- Mutation of the single entry row fetched by primary key (`get_by_id`). -/
def updateEntry (l : List VEntry) (entry_id : Nat) (f : VEntry → VEntry) : List VEntry :=
  match l with
  | [] => []
  | e :: rest => if e.id == entry_id then f e :: rest else e :: updateEntry rest entry_id f

/-- The counter update `add_vote` applies to the voted entry. -/
def bumpEntry (contest : VContest) (is_stars : Bool) (stars_amount : Int) (e : VEntry) : VEntry :=
  if is_stars then
    { e with stars_received := e.stars_received + stars_amount,
             votes_count := e.votes_count + stars_amount *
               (if contest.star_to_vote_rate = 0 then 2 else contest.star_to_vote_rate) }
  else { e with votes_count := e.votes_count + 1 }

/-- `VotingService.add_vote(contest_id, entry_id, voter_id, is_stars,
stars_amount)`: returns the boolean result and the state after the one
atomic commit (vote row insert plus entry counter update). -/
def add_vote (s : VoteState) (contest_id entry_id voter_id : Nat)
    (is_stars : Bool) (stars_amount : Int) : Bool × VoteState :=
  match s.contests.find? (fun c => c.id == contest_id) with
  | none => (false, s)
  | some contest =>
    if !contest.is_open then (false, s)
    else if !is_stars && contest.prevent_multiple_votes &&
        has_voted s.votes contest_id voter_id then (false, s)
    else
      match s.entries.find? (fun e => e.id == entry_id) with
      | none => (false, s)
      | some _ =>
        (true,
          { s with
            entries := updateEntry s.entries entry_id (bumpEntry contest is_stars stars_amount),
            votes := s.votes ++ [⟨contest_id, entry_id, voter_id, is_stars, stars_amount⟩] })

lemma find?_updateEntry (l : List VEntry) (entry_id : Nat) (f : VEntry → VEntry)
    (hf : ∀ x, (f x).id = x.id) (e : VEntry)
    (h : l.find? (fun x => x.id == entry_id) = some e) :
    (updateEntry l entry_id f).find? (fun x => x.id == entry_id) = some (f e) := by
  induction l with
  | nil => simp at h
  | cons a rest ih =>
    rw [updateEntry]
    cases hb : (a.id == entry_id) with
    | true =>
      rw [if_pos rfl]
      simp only [List.find?_cons, hb] at h
      obtain rfl : a = e := Option.some.inj h
      have hb2 : ((f a).id == entry_id) = true := by
        rw [hf]
        exact hb
      simp [List.find?_cons, hb2]
    | false =>
      rw [if_neg Bool.false_ne_true]
      simp only [List.find?_cons, hb] at h
      simp only [List.find?_cons, hb]
      exact ih h

/-- Claim C4: in an open contest with `prevent_multiple_votes` enabled, a
normal vote by a voter with any prior vote (normal or weighted) in that
contest returns false and mutates nothing; with it disabled, every normal
vote call is accepted regardless of prior votes, appends exactly one vote
row and increments the target entry's `votes_count` by exactly 1. -/
theorem add_vote_duplicate_policy (s : VoteState) (contest_id entry_id voter_id : Nat)
    (c : VContest) (e : VEntry)
    (hc : s.contests.find? (fun x => x.id == contest_id) = some c)
    (hopen : c.is_open = true) :
    (c.prevent_multiple_votes = true → has_voted s.votes contest_id voter_id = true →
      add_vote s contest_id entry_id voter_id false 0 = (false, s)) ∧
    (c.prevent_multiple_votes = false →
      s.entries.find? (fun x => x.id == entry_id) = some e →
      (add_vote s contest_id entry_id voter_id false 0).1 = true ∧
      (add_vote s contest_id entry_id voter_id false 0).2.entries.find?
          (fun x => x.id == entry_id) = some { e with votes_count := e.votes_count + 1 } ∧
      (add_vote s contest_id entry_id voter_id false 0).2.votes =
        s.votes ++ [⟨contest_id, entry_id, voter_id, false, 0⟩]) := by
  constructor
  · intro hprev hvoted
    simp [add_vote, hc, hopen, hprev, hvoted]
  · intro hprev hfind
    have hid : ∀ x, (bumpEntry c false 0 x).id = x.id := by
      intro x
      simp [bumpEntry]
    have hupd := find?_updateEntry s.entries entry_id (bumpEntry c false 0) hid e hfind
    refine ⟨?_, ?_, ?_⟩ <;>
      simp [add_vote, hc, hopen, hprev, hfind, hupd, bumpEntry]

/-- Witness for C4: contest 1 strict — voter 9's earlier weighted vote blocks
a later normal vote; the same call succeeds in a contest with the policy
disabled and bumps entry 5 from 3 to 4 votes. -/
theorem add_vote_duplicate_policy_witness :
    add_vote ⟨[⟨1, true, true, 2⟩], [⟨5, 1, 7, 3, 0⟩], [⟨1, 5, 9, true, 4⟩]⟩ 1 5 9 false 0 =
      (false, ⟨[⟨1, true, true, 2⟩], [⟨5, 1, 7, 3, 0⟩], [⟨1, 5, 9, true, 4⟩]⟩) ∧
    (add_vote ⟨[⟨1, true, false, 2⟩], [⟨5, 1, 7, 3, 0⟩], [⟨1, 5, 9, true, 4⟩]⟩ 1 5 9 false 0).2.entries.find?
        (fun x => x.id == 5) = some ⟨5, 1, 7, 4, 0⟩ :=
  ⟨(add_vote_duplicate_policy ⟨[⟨1, true, true, 2⟩], [⟨5, 1, 7, 3, 0⟩], [⟨1, 5, 9, true, 4⟩]⟩
      1 5 9 ⟨1, true, true, 2⟩ ⟨5, 1, 7, 3, 0⟩ (by decide) (by decide)).1 (by decide) (by decide),
   ((add_vote_duplicate_policy ⟨[⟨1, true, false, 2⟩], [⟨5, 1, 7, 3, 0⟩], [⟨1, 5, 9, true, 4⟩]⟩
      1 5 9 ⟨1, true, false, 2⟩ ⟨5, 1, 7, 3, 0⟩ (by decide) (by decide)).2 (by decide) (by decide)).2.1⟩

/-! ## VOTE finalization ranking (`app/services/voting.py`, `get_top_entries`;
`app/routers/voting.py`, `handle_vote_draw`)

`handle_vote_draw` announces exactly the rows returned by
`get_top_entries(contest_id, limit=winners_count)`, which executes
`SELECT .. WHERE contest_id = ? ORDER BY votes_count DESC LIMIT n`.  The
query has no secondary sort key, so the database contract determines the
result only up to reordering of equal `votes_count`: any permutation of the
contest's entries that is sorted by `votes_count` descending, truncated to
`n`, is a legal result.  `isTopEntriesResult` is that contract. -/

def isTopEntriesResult (entries : List VEntry) (contest_id : Nat) (limit : Nat)
    (out : List VEntry) : Prop :=
  ∃ sorted : List VEntry,
    sorted.Perm (entries.filter (fun e => e.contest_id == contest_id)) ∧
    sorted.Pairwise (fun a b => b.votes_count ≤ a.votes_count) ∧
    out = sorted.take limit

/-- Modelled from the spec: the stable ranking claim C9 asserts — top
`winner_count` entries by `votes_count` descending with ties broken by
earliest registration (entry order preserved; `insertionSort` is stable).
The code does not implement a secondary tie-break; this definition exists
only to compare the spec's words with the query contract above. -/
def vote_winners_stable_spec (entries : List VEntry) (contest_id : Nat) (limit : Nat) :
    List VEntry :=
  ((entries.filter (fun e => e.contest_id == contest_id)).insertionSort
    (fun a b => b.votes_count ≤ a.votes_count)).take limit

def c9_eA : VEntry := ⟨1, 1, 11, 5, 0⟩

def c9_eB : VEntry := ⟨2, 1, 12, 5, 0⟩

/-- Counterexample to C9 as stated: with two tied entries (5 votes each) the
query contract admits the result `[eB, eA]`, which differs from the
entry-id-stable ranking `[eA, eB]` the claim promises — tie order is not
guaranteed to follow earliest registration. -/
theorem top_entries_tiebreak_counterexample :
    isTopEntriesResult [c9_eA, c9_eB] 1 2 [c9_eB, c9_eA] ∧
    vote_winners_stable_spec [c9_eA, c9_eB] 1 2 = [c9_eA, c9_eB] ∧
    [c9_eB, c9_eA] ≠ [c9_eA, c9_eB] := by
  refine ⟨⟨[c9_eB, c9_eA], ?_, ?_, rfl⟩, ?_, ?_⟩ <;> decide

/-- Amended C9: every legal result of the winners query consists of (up to)
`winner_count` entries of the contest, listed in descending `votes_count`
order, and no entry left out has strictly more votes than any announced
winner; the order among entries with equal `votes_count` is unspecified
(there is no secondary sort key), so ties are not guaranteed to be broken
by earliest registration. -/
theorem top_entries_query_amended (entries : List VEntry) (contest_id : Nat) (limit : Nat)
    (out : List VEntry) (h : isTopEntriesResult entries contest_id limit out) :
    out.length = min limit (entries.filter (fun e => e.contest_id == contest_id)).length ∧
    out.Pairwise (fun a b => b.votes_count ≤ a.votes_count) ∧
    (∀ e ∈ out, e ∈ entries.filter (fun x => x.contest_id == contest_id)) ∧
    (∀ e ∈ out, ∀ e2 ∈ entries.filter (fun x => x.contest_id == contest_id),
      e2 ∉ out → e2.votes_count ≤ e.votes_count) := by
  obtain ⟨sorted, hperm, hsorted, rfl⟩ := h
  refine ⟨?_, ?_, ?_, ?_⟩
  · rw [List.length_take, hperm.length_eq]
  · exact hsorted.sublist (List.take_sublist _ _)
  · intro e he
    exact hperm.subset (List.mem_of_mem_take he)
  · intro e he e2 he2 hnot
    have he2s : e2 ∈ sorted := (hperm.mem_iff).mpr he2
    have hsplit := List.take_append_drop limit sorted
    have hpw : (sorted.take limit ++ sorted.drop limit).Pairwise
        (fun a b => b.votes_count ≤ a.votes_count) := by
      rw [hsplit]
      exact hsorted
    have hcross := (List.pairwise_append.mp hpw).2.2
    have he2d : e2 ∈ sorted.drop limit := by
      rcases (List.mem_append.mp (by rw [hsplit]; exact he2s)) with h1 | h1
      · exact absurd h1 hnot
      · exact h1
    exact hcross e he e2 he2d

/-- Witness for the amended C9 at a concrete input: a single entry, limit 1. -/
theorem top_entries_query_amended_witness :
    [c9_eA].length = min 1 ([c9_eA].filter (fun e => e.contest_id == 1)).length ∧
    List.Pairwise (fun a b => VEntry.votes_count b ≤ VEntry.votes_count a) [c9_eA] ∧
    (∀ e ∈ [c9_eA], e ∈ [c9_eA].filter (fun x => x.contest_id == 1)) ∧
    (∀ e ∈ [c9_eA], ∀ e2 ∈ [c9_eA].filter (fun x => x.contest_id == 1),
      e2 ∉ [c9_eA] → e2.votes_count ≤ e.votes_count) :=
  top_entries_query_amended [c9_eA] 1 1 [c9_eA] ⟨[c9_eA], by decide, by decide, rfl⟩

/-! ## Roulette lifecycle (`app/routers/roulette.py`: `join`, `pause`,
`resume`)

The `roulettes` and `participants` tables become lists; the platform-side
eligibility checks inside `join` (rate limiter, base-channel membership,
gate-channel memberships) are boolean parameters, since they are injected
I/O.  `join` answers the same success message whether it inserted a row or
found an existing one; both are the `joined` outcome. -/

structure Roulette where
  id : Nat
  owner_id : Nat
  winners_count : Nat
  is_open : Bool
  closed_at : Option Nat
deriving DecidableEq

structure RouletteState where
  roulettes : List Roulette
  participants : List (Nat × Nat)
deriving DecidableEq

/-- Mutation of the single roulette row fetched by id. -/
def updateRoulette (l : List Roulette) (rid : Nat) (f : Roulette → Roulette) : List Roulette :=
  match l with
  | [] => []
  | r :: rest => if r.id == rid then f r :: rest else r :: updateRoulette rest rid f

inductive JoinOutcome
  | throttled
  | participationClosed
  | notSubscribed
  | gateBlocked
  | joined
deriving DecidableEq

/-- Number of participant rows for `(rid, uid)`. -/
def countJoined (s : RouletteState) (rid uid : Nat) : Nat :=
  (s.participants.filter (fun q => q.1 == rid && q.2 == uid)).length

/-- The `join:` callback: rejects when the roulette is missing or not open,
or an eligibility check fails; otherwise inserts the participant row only
when none exists and reports success either way. -/
def joinHandler (s : RouletteState) (rid uid : Nat)
    (allowed subscribed gatesOk : Bool) : JoinOutcome × RouletteState :=
  if !allowed then (.throttled, s)
  else
    match s.roulettes.find? (fun r => r.id == rid) with
    | none => (.participationClosed, s)
    | some r =>
      if !r.is_open then (.participationClosed, s)
      else if !subscribed then (.notSubscribed, s)
      else if !gatesOk then (.gateBlocked, s)
      else if s.participants.any (fun q => q.1 == rid && q.2 == uid) then (.joined, s)
      else (.joined, { s with participants := s.participants ++ [(rid, uid)] })

inductive ToggleOutcome
  | throttled
  | unauthorized
  | toggled
deriving DecidableEq

/-- The `resume:` callback: sets `is_open = True` for the owner or a channel
admin, with no check of `closed_at`. -/
def resumeHandler (s : RouletteState) (rid uid : Nat)
    (allowed isChannelAdmin : Bool) : ToggleOutcome × RouletteState :=
  if !allowed then (.throttled, s)
  else
    match s.roulettes.find? (fun r => r.id == rid) with
    | none => (.unauthorized, s)
    | some r =>
      if r.owner_id == uid || isChannelAdmin then
        (.toggled,
          { s with roulettes := updateRoulette s.roulettes rid (fun x => { x with is_open := true }) })
      else (.unauthorized, s)

/-- The `pause:` callback: sets `is_open = False` under the same guard. -/
def pauseHandler (s : RouletteState) (rid uid : Nat)
    (allowed isChannelAdmin : Bool) : ToggleOutcome × RouletteState :=
  if !allowed then (.throttled, s)
  else
    match s.roulettes.find? (fun r => r.id == rid) with
    | none => (.unauthorized, s)
    | some r =>
      if r.owner_id == uid || isChannelAdmin then
        (.toggled,
          { s with roulettes := updateRoulette s.roulettes rid (fun x => { x with is_open := false }) })
      else (.unauthorized, s)

/-- A finalized roulette (id 1, owner 10, `closed_at = 99`, participation
stopped) with one participant row `(1, 7)`. -/
def c2_s0 : RouletteState := ⟨[⟨1, 10, 1, false, some 99⟩], [(1, 7)]⟩

def c2_s1 : RouletteState := (resumeHandler c2_s0 1 10 true false).2

def c2_join : JoinOutcome × RouletteState := joinHandler c2_s1 1 42 true true true

/-- Claim C2 (code bug in `resume`): a finalized contest rejects joins while
`is_open` is false, but `resume` sets `is_open = True` without checking
`closed_at`, after which a join by user 42 succeeds and inserts a
participant row against the still-finalized contest (`closed_at` remains
set), contradicting the terminal-CLOSED invariant. -/
theorem resume_reopens_finalized :
    (joinHandler c2_s0 1 42 true true true).1 = .participationClosed ∧
    (joinHandler c2_s0 1 42 true true true).2 = c2_s0 ∧
    (resumeHandler c2_s0 1 10 true false).1 = .toggled ∧
    c2_join.1 = .joined ∧
    countJoined c2_join.2 1 42 = 1 ∧
    (c2_join.2.roulettes.find? (fun r => r.id == 1)).map Roulette.closed_at =
      some (some 99) := by
  decide

/-- Claim C8: join is idempotent — with the contest open, the user eligible
and no existing row, the first join succeeds and inserts exactly one
participant row, and a second identical join reports success while changing
nothing. -/
theorem join_idempotent (s : RouletteState) (rid uid : Nat) (r : Roulette)
    (hfind : s.roulettes.find? (fun x => x.id == rid) = some r)
    (hopen : r.is_open = true)
    (hnew : countJoined s rid uid = 0) :
    (joinHandler s rid uid true true true).1 = .joined ∧
    countJoined (joinHandler s rid uid true true true).2 rid uid = 1 ∧
    joinHandler (joinHandler s rid uid true true true).2 rid uid true true true =
      (.joined, (joinHandler s rid uid true true true).2) := by
  have hfil : s.participants.filter (fun q => q.1 == rid && q.2 == uid) = [] :=
    List.length_eq_zero.mp hnew
  have hany : s.participants.any (fun q => q.1 == rid && q.2 == uid) = false := by
    rw [Bool.eq_false_iff]
    intro hc
    obtain ⟨x, hx, hpx⟩ := List.any_eq_true.mp hc
    exact absurd hpx (by simpa using List.filter_eq_nil_iff.mp hfil x hx)
  have h1 : joinHandler s rid uid true true true =
      (.joined, { s with participants := s.participants ++ [(rid, uid)] }) := by
    simp [joinHandler, hfind, hopen, hany]
  refine ⟨by rw [h1], ?_, ?_⟩
  · rw [h1]
    simp [countJoined, List.filter_append, hfil]
  · rw [h1]
    have hany2 : (s.participants ++ [(rid, uid)]).any
        (fun q => q.1 == rid && q.2 == uid) = true := by
      rw [List.any_eq_true]
      exact ⟨(rid, uid), List.mem_append_right _ (List.mem_singleton_self _), by simp⟩
    simp [joinHandler, hfind, hopen, hany2]

/-- Witness for C8: roulette 1 open with no participants; user 5 joins twice
and exactly one row exists. -/
theorem join_idempotent_witness :
    (joinHandler ⟨[⟨1, 10, 1, true, none⟩], []⟩ 1 5 true true true).1 = .joined ∧
    countJoined (joinHandler ⟨[⟨1, 10, 1, true, none⟩], []⟩ 1 5 true true true).2 1 5 = 1 ∧
    joinHandler (joinHandler ⟨[⟨1, 10, 1, true, none⟩], []⟩ 1 5 true true true).2 1 5 true true true =
      (.joined, (joinHandler ⟨[⟨1, 10, 1, true, none⟩], []⟩ 1 5 true true true).2) :=
  join_idempotent ⟨[⟨1, 10, 1, true, none⟩], []⟩ 1 5 ⟨1, 10, 1, true, none⟩
    (by decide) (by decide) (by decide)

/-! ## Winner-count input (`app/routers/roulette.py`: `_parse_int_strict`,
`collect_winners`)

Characters of the owner's message become tokens: whitespace, a Unicode
decimal digit carrying its value, or anything else.  `_parse_int_strict`
skips whitespace, rejects on any non-digit and on an empty digit sequence;
`collect_winners` re-prompts on `None` or `0` (`if not val`) and otherwise
stores `max(1, min(100, val))`. -/

inductive Tok
  | ws
  | digit (d : Fin 10)
  | other
deriving DecidableEq

def parseDigits : List Tok → Option (List Nat)
  | [] => some []
  | .ws :: rest => parseDigits rest
  | .digit d :: rest => (parseDigits rest).map (fun ds => d.val :: ds)
  | .other :: _ => none

/-- `_parse_int_strict(text)`. -/
def parse_int_strict (toks : List Tok) : Option Nat :=
  match parseDigits toks with
  | none => none
  | some [] => none
  | some ds => some (ds.foldl (fun acc d => 10 * acc + d) 0)

inductive WinnersStep
  | reprompt
  | accepted (winners : Nat)
deriving DecidableEq

/-- `collect_winners(message)`: the stored winner count, or a re-prompt with
no state change. -/
def collect_winners (toks : List Tok) : WinnersStep :=
  match parse_int_strict toks with
  | none => .reprompt
  | some v => if v = 0 then .reprompt else .accepted (max 1 (min 100 v))

/-- Claim C10 (implicit in the code): the accepted winner count is clamped
to `[1, 100]` — every numeric input `v ≥ 1` stores exactly `min 100 v`
(out-of-range values silently clamped), while a non-numeric input or one
parsing to 0 is re-prompted with no state change. -/
theorem collect_winners_clamp (toks : List Tok) (v : Nat) :
    (parse_int_strict toks = some v → 1 ≤ v →
      collect_winners toks = .accepted (min 100 v)) ∧
    (parse_int_strict toks = some 0 → collect_winners toks = .reprompt) ∧
    (parse_int_strict toks = none → collect_winners toks = .reprompt) := by
  refine ⟨?_, ?_, ?_⟩
  · intro h hv
    have hmax : max 1 (min 100 v) = min 100 v := by omega
    simp [collect_winners, h, Nat.pos_iff_ne_zero.mp hv, hmax]
  · intro h
    simp [collect_winners, h]
  · intro h
    simp [collect_winners, h]

/-- Witness for C10: the digit string `250` is clamped to 100; the digit `0`
and a non-numeric input are re-prompted. -/
theorem collect_winners_clamp_witness :
    collect_winners [.digit 2, .digit 5, .digit 0] = .accepted 100 ∧
    collect_winners [.digit 0] = .reprompt ∧
    collect_winners [.digit 4, .other] = .reprompt := by
  refine ⟨?_, ?_, ?_⟩
  · exact (collect_winners_clamp [.digit 2, .digit 5, .digit 0] 250).1 (by decide) (by decide)
  · exact (collect_winners_clamp [.digit 0] 0).2.1 (by decide)
  · exact (collect_winners_clamp [.digit 4, .other] 0).2.2 (by decide)

/-! ## Draw concurrency guard (`app/routers/roulette.py`, `draw`)

The handler guards finalization with two locks: the per-process dictionary
`_inproc_locks` (checked and set before the `try`, popped in the
`finally`), and a database `AppSetting` row `draw:in_progress:<id>` whose
unique-key insert fails loudly when the row exists — and which the
`finally` block deletes unconditionally, whether or not this attempt
inserted it.  `DrawSys` is the shared storage plus the in-process lock
dictionaries of two bot processes; an attempt is split at its suspension
points into `drawEnter` (everything up to the start of the 30-second
countdown) and `drawFinish` (the resumption after the countdown: winner
computation, announcement, `closed_at`/`is_open` update, lock release).
Each piece is a real atomic block of the cooperative scheduler, so every
interleaving of these pieces corresponds to a possible execution. -/

structure DrawSys where
  rouletteLives : Bool
  dbLock : Bool
  closed_at : Option Nat
  is_open : Bool
  participants : List Nat
  announcements : Nat
  inproc1 : Bool
  inproc2 : Bool
deriving DecidableEq

inductive EnterOutcome
  | inprocBusy
  | notFound
  | dbBusy
  | unauthorized
  | stillOpen
  | alreadyClosed
  | noParticipants
  | countdown
deriving DecidableEq

def inprocOf (s : DrawSys) (p1 : Bool) : Bool :=
  if p1 then s.inproc1 else s.inproc2

def setInproc (s : DrawSys) (p1 v : Bool) : DrawSys :=
  if p1 then { s with inproc1 := v } else { s with inproc2 := v }

/-- The `finally` block: pop this process's in-process lock and delete the
`draw:in_progress` row — unconditionally on every exit path. -/
def releaseLocks (s : DrawSys) (p1 : Bool) : DrawSys :=
  { setInproc s p1 false with dbLock := false }

/-- The draw handler up to the countdown: in-process lock check and set,
roulette fetch, atomic lock-row insert (`dbBusy` on conflict), authorization,
`is_open` and `closed_at` re-checks, participant check.  Every early return
passes through `releaseLocks` (the `finally`). -/
def drawEnter (s : DrawSys) (p1 : Bool) (authorized : Bool) : EnterOutcome × DrawSys :=
  if inprocOf s p1 then (.inprocBusy, s)
  else
    let s1 := setInproc s p1 true
    if !s1.rouletteLives then (.notFound, releaseLocks s1 p1)
    else if s1.dbLock then (.dbBusy, releaseLocks s1 p1)
    else
      let s2 := { s1 with dbLock := true }
      if !authorized then (.unauthorized, releaseLocks s2 p1)
      else if s2.is_open then (.stillOpen, releaseLocks s2 p1)
      else if s2.closed_at.isSome then (.alreadyClosed, releaseLocks s2 p1)
      else if s2.participants.isEmpty then (.noParticipants, releaseLocks s2 p1)
      else (.countdown, s2)

/-- The resumption after the countdown: winners are computed and announced
with no re-check of `closed_at`, then `closed_at = closed_at or now` and
`is_open = False` are committed and the locks released. -/
def drawFinish (s : DrawSys) (p1 : Bool) (t : Nat) : DrawSys :=
  releaseLocks
    { s with
      announcements := s.announcements + 1,
      closed_at := some (s.closed_at.getD t),
      is_open := false } p1

/-- Roulette 1: published, participation stopped, one participant, never
drawn; no locks held. -/
def c1_s0 : DrawSys := ⟨true, false, none, false, [7], 0, false, false⟩

def c1_a : EnterOutcome × DrawSys := drawEnter c1_s0 true true

def c1_b : EnterOutcome × DrawSys := drawEnter c1_a.2 false true

def c1_c : EnterOutcome × DrawSys := drawEnter c1_b.2 false true

def c1_s3 : DrawSys := drawFinish c1_c.2 false 5

def c1_s4 : DrawSys := drawFinish c1_s3 true 6

/-- Claim C1 (code bug in the `finally` block): attempt A (process 1)
acquires both locks and suspends in the countdown; attempt B (process 2)
fails the lock-row insert — observing "already in progress" — yet its
`finally` deletes the lock row A inserted, releasing a lock B never
acquired; attempt C (process 2) then acquires the freed lock during A's
countdown, and both C and A complete finalization: two winner
announcements for one contest. -/
theorem draw_double_finalization :
    c1_a.1 = .countdown ∧ c1_a.2.dbLock = true ∧
    c1_b.1 = .dbBusy ∧ c1_b.2.dbLock = false ∧
    c1_c.1 = .countdown ∧
    c1_s4.announcements = 2 ∧ c1_s4.closed_at = some 5 := by
  decide

end Ro
